import Mathlib

/-!
Verification development for the Proyecto_SDF room-allocation system.

The Python sources are shallowly embedded:
* `DTI_servidor.py` — the `Aula` data model and `ServidorDTI.asignar_aulas`
  (the Resource-Table mutation at the heart of the allocator worker);
* `DTI_servidor_backup.py` — `actualizar_estado_servidor` (snapshot upsert),
  the heartbeat monitor/failover flags, and the `hilo_worker`
  semaphore-gated admission loop;
* `load_balancer_broker.py` — the idle-worker queue operations
  (`handle_worker_message`, `get_next_worker`, `cleanup_worker_list`) and the
  reply-relay JSON guard.

A Python `dict` (`self.aulas`, keyed by aula id) is embedded as an
association list `List (String × Aula)` in insertion order; dict-key
uniqueness appears as the hypothesis `Nodup (t.map Prod.fst)` where needed.
In-place mutation of an `Aula` object is embedded as an update of the entry
with the corresponding key (object identity coincides with the dict slot).
-/

namespace SDF

/-- Kinds of classroom, from `TipoAula` in DTI_servidor.py
(SALON, LABORATORIO, AULA_MOVIL). -/
inductive TipoAula where
  | salon
  | laboratorio
  | aulaMovil
deriving DecidableEq, Repr

/-- Availability states, from `EstadoAula` in DTI_servidor.py
(DISPONIBLE, ASIGNADA). -/
inductive EstadoAula where
  | disponible
  | asignada
deriving DecidableEq, Repr

/-- One allocatable resource, from the `Aula` dataclass in DTI_servidor.py. -/
structure Aula where
  id : String
  tipo : TipoAula
  estado : EstadoAula
  capacidad : Nat
  facultad : String
  programa : String
  fecha_solicitud : String
  fecha_asignacion : String
deriving DecidableEq, Repr

/-- The Resource Table: the Python dict `self.aulas` (aula id → Aula),
embedded as an association list in insertion order. -/
abbrev Table := List (String × Aula)

/-- An allocation request, from the fields `asignar_aulas` reads off the
incoming `solicitud` dict (estructuras.py: SOLICITUD_FACULTAD). -/
structure Solicitud where
  facultad : String
  programa : String
  semestre : Nat
  salones : Nat
  laboratorios : Nat
deriving DecidableEq, Repr

/-- A response from `asignar_aulas`: either the unavailable shape
`{noDisponible: mensaje}`, the success shape, or the error shape
`{error: mensaje}` produced by the exception handler (never produced by
the embedding, whose input is already well-typed). -/
inductive Respuesta where
  | noDisponible (mensaje : String)
  | exito (facultad programa : String) (semestre : Nat)
      (salones_asignados laboratorios_asignados : List String)
      (notificacion : Option String)
  | error (mensaje : String)
deriving DecidableEq, Repr

/-- Filter predicate of DTI_servidor.py line 135: tipo SALON and estado
DISPONIBLE. -/
def esSalonDisponible (a : Aula) : Bool :=
  decide (a.tipo = TipoAula.salon ∧ a.estado = EstadoAula.disponible)

/-- Filter predicate of DTI_servidor.py line 157: tipo LABORATORIO and
estado DISPONIBLE. -/
def esLabDisponible (a : Aula) : Bool :=
  decide (a.tipo = TipoAula.laboratorio ∧ a.estado = EstadoAula.disponible)

/-- Field mutation performed on each assigned aula (DTI_servidor.py
lines 148-152 and 175-179): estado ASIGNADA, facultad, programa, and both
timestamps set to the request timestamp. -/
def asignarCampos (facultad programa marca : String) (a : Aula) : Aula :=
  { a with estado := EstadoAula.asignada, facultad := facultad,
           programa := programa, fecha_solicitud := marca,
           fecha_asignacion := marca }

/-- Field mutation for a salon converted to a mobile room
(DTI_servidor.py lines 192-197): same as `asignarCampos` plus
tipo := AULA_MOVIL. -/
def convertirEnMovil (facultad programa marca : String) (a : Aula) : Aula :=
  { asignarCampos facultad programa marca a with tipo := TipoAula.aulaMovil }

/-- In-place mutation of the chosen dict entries: every entry whose key is
among `claves` is rewritten with `f`, all others are untouched. -/
def actualizarClaves (t : Table) (claves : List String) (f : Aula → Aula) :
    Table :=
  t.map fun kv => if kv.1 ∈ claves then (kv.1, f kv.2) else kv

/-- The unavailable message of DTI_servidor.py line 142. -/
def mensajeSinSalones (solicitados disponibles : Nat) : String :=
  "No hay suficientes salones disponibles. Solicitados: "
    ++ toString solicitados ++ ", Disponibles: " ++ toString disponibles

/-- The unavailable message of DTI_servidor.py line 171. -/
def mensajeSinLabs (solicitados labs convertibles : Nat) : String :=
  "No hay suficientes laboratorios o salones convertibles. Solicitados: "
    ++ toString solicitados ++ ", Disponibles: "
    ++ toString (labs + convertibles) ++ " (Labs: " ++ toString labs
    ++ ", Convertibles: " ++ toString convertibles ++ ")"

/-- The conversion notice of DTI_servidor.py lines 215-218. -/
def mensajeNotificacion (n : Nat) : String :=
  "Se han convertido " ++ toString n
    ++ " salones en aulas móviles por falta de laboratorios disponibles."

/-- Continuation of `ServidorDTI.asignar_aulas` from the availability check
of line 139 onward, with the `salones_disponibles` scan of lines 135-137
passed in as `salonesDisponibles`.  Factoring the function here lets a
preemption point be placed between the scan and the mutation loop, which the
Python code permits: `asignar_aulas` runs on a plain thread and takes no
lock, so another request's whole call can interleave at that point. -/
def asignarDesdeScan (salonesDisponibles : Table) (t : Table)
    (sol : Solicitud) (marca : String) : Respuesta × Table :=
  if salonesDisponibles.length < sol.salones then
    (Respuesta.noDisponible
        (mensajeSinSalones sol.salones salonesDisponibles.length), t)
  else
    let elegidosSalones := salonesDisponibles.take sol.salones
    let salones_asignados := elegidosSalones.map fun kv => kv.2.id
    let t1 := actualizarClaves t (elegidosSalones.map Prod.fst)
                (asignarCampos sol.facultad sol.programa marca)
    let laboratoriosDisponibles := t1.filter fun kv => esLabDisponible kv.2
    let salonesConvertibles := t1.filter fun kv =>
        esSalonDisponible kv.2 && !(decide (kv.2.id ∈ salones_asignados))
    if laboratoriosDisponibles.length + salonesConvertibles.length
        < sol.laboratorios then
      (Respuesta.noDisponible
          (mensajeSinLabs sol.laboratorios laboratoriosDisponibles.length
            salonesConvertibles.length), t1)
    else
      let elegidosLabs := laboratoriosDisponibles.take sol.laboratorios
      let laboratorios_asignados := elegidosLabs.map fun kv => kv.2.id
      let t2 := actualizarClaves t1 (elegidosLabs.map Prod.fst)
                  (asignarCampos sol.facultad sol.programa marca)
      let paso :=
        if laboratorios_asignados.length < sol.laboratorios then
          let faltantes := sol.laboratorios - laboratorios_asignados.length
          let salonesDisponibles2 := t2.filter fun kv =>
              esSalonDisponible kv.2 && !(decide (kv.2.id ∈ salones_asignados))
          let elegidosMoviles := salonesDisponibles2.take faltantes
          (elegidosMoviles.map (fun kv => kv.2.id),
            actualizarClaves t2 (elegidosMoviles.map Prod.fst)
              (convertirEnMovil sol.facultad sol.programa marca))
        else ([], t2)
      let aulas_moviles := paso.1
      let notificacion :=
        if aulas_moviles.isEmpty then none
        else some (mensajeNotificacion aulas_moviles.length)
      (Respuesta.exito sol.facultad sol.programa sol.semestre
          salones_asignados (laboratorios_asignados ++ aulas_moviles)
          notificacion, paso.2)

/-- ServidorDTI.asignar_aulas (DTI_servidor.py lines 122-234) as a pure
function from the Resource Table and the request to the response and the
table after the call.  `marca` is the `datetime.now().isoformat()`
timestamp.  The durable rewrite (`guardar_aulas`) performed on the success
path is file I/O and changes no in-memory state, so it does not appear. -/
def asignar_aulas (t : Table) (sol : Solicitud) (marca : String) :
    Respuesta × Table :=
  asignarDesdeScan (t.filter fun kv => esSalonDisponible kv.2) t sol marca

/-- A fresh available salon with blank assignment context, as loaded by
`cargar_aulas` for an unassigned row. -/
def salonLibre (i : String) (cap : Nat) : Aula :=
  { id := i, tipo := TipoAula.salon, estado := EstadoAula.disponible,
    capacidad := cap, facultad := "", programa := "",
    fecha_solicitud := "", fecha_asignacion := "" }

/-- A fresh available laboratorio with blank assignment context. -/
def labLibre (i : String) (cap : Nat) : Aula :=
  { id := i, tipo := TipoAula.laboratorio, estado := EstadoAula.disponible,
    capacidad := cap, facultad := "", programa := "",
    fecha_solicitud := "", fecha_asignacion := "" }

/-! Load-Balancing Broker (load_balancer_broker.py). -/

/-- Transport address of a worker or client: the ZeroMQ identity frame. -/
abbrev Addr := String

/-- The broker routing state touched by worker registration and dispatch:
`available_workers` (a Python list used as a FIFO queue of idle workers)
and `workers` (a Python set of registered workers, embedded as a
duplicate-free list in insertion order). -/
structure BrokerState where
  available_workers : List Addr
  workers : List Addr
deriving DecidableEq, Repr

/-- Broker state at startup (constructor lines 39-42). -/
def brokerInicial : BrokerState := { available_workers := [], workers := [] }

/-- READY branch of LoadBalancerBroker.handle_worker_message (lines
164-185): append the address to `available_workers` only if absent, and add
it to the `workers` set only if new. -/
def handleReady (s : BrokerState) (worker_address : Addr) : BrokerState :=
  { available_workers :=
      if worker_address ∈ s.available_workers then s.available_workers
      else s.available_workers ++ [worker_address],
    workers :=
      if worker_address ∈ s.workers then s.workers
      else s.workers ++ [worker_address] }

/-- Re-queue step of the reply branch of handle_worker_message (lines
195-197): the replying worker returns to the idle queue only if not
already present. -/
def requeueOnReply (s : BrokerState) (worker_address : Addr) : BrokerState :=
  { s with available_workers :=
      if worker_address ∈ s.available_workers then s.available_workers
      else s.available_workers ++ [worker_address] }

/-- LoadBalancerBroker.get_next_worker (lines 318-324): pop index 0 of the
idle queue; raises when the queue is empty (`none` here). -/
def get_next_worker (s : BrokerState) : Option (Addr × BrokerState) :=
  match s.available_workers with
  | [] => none
  | w :: rest => some (w, { s with available_workers := rest })

/-- Recursion of cleanup_worker_list (lines 338-344): keep the first
occurrence of each address, in order, tracking a `seen` set. -/
def cleanupAux (seen : List Addr) : List Addr → List Addr
  | [] => []
  | w :: rest =>
    if w ∈ seen then cleanupAux seen rest
    else w :: cleanupAux (w :: seen) rest

/-- LoadBalancerBroker.cleanup_worker_list (lines 335-354): deduplicate the
idle queue, preserving order. -/
def cleanup_worker_list (s : BrokerState) : BrokerState :=
  { s with available_workers := cleanupAux [] s.available_workers }

/-- The queue-affecting events of the broker loop. -/
inductive BrokerOp where
  | ready (a : Addr)
  | reply (a : Addr)
  | dispatch
  | cleanup
deriving DecidableEq, Repr

/-- Effect of one broker event on the routing state.  `dispatch` only fires
in broker_loop when `available_workers` is non-empty (line 152), so an empty
queue leaves the state unchanged. -/
def brokerStep (s : BrokerState) : BrokerOp → BrokerState
  | .ready a => handleReady s a
  | .reply a => requeueOnReply s a
  | .dispatch =>
    match get_next_worker s with
    | none => s
    | some p => p.2
  | .cleanup => cleanup_worker_list s

/-- Run a sequence of broker events. -/
def brokerRun (s : BrokerState) (ops : List BrokerOp) : BrokerState :=
  ops.foldl brokerStep s

/-- The client-facing branch of broker_loop (lines 151-153) together with
handle_client_message / get_next_worker: a pending client message is
consumed, and dispatched to the front idle worker, only when the idle queue
is non-empty; otherwise the message stays queued on the frontend.  Returns
(dispatch performed, new state, remaining pending messages). -/
def brokerLoopCliente (s : BrokerState) (pendientes : List String) :
    Option (Addr × String) × BrokerState × List String :=
  match s.available_workers, pendientes with
  | w :: rest, m :: ms =>
    (some (w, m), { s with available_workers := rest }, ms)
  | _, _ => (none, s, pendientes)

/-- Iterated sequential dispatch: `r` client messages served back-to-back
with no intervening READY or reply (each one pops the front of the idle
queue via get_next_worker). -/
def dispatchSeq (s : BrokerState) : Nat → List Addr × BrokerState
  | 0 => ([], s)
  | r + 1 =>
    match get_next_worker s with
    | none => ([], s)
    | some (w, s') =>
      let resto := dispatchSeq s' r
      (w :: resto.1, resto.2)

/-- The standardized error payload the broker substitutes for an
unparseable worker reply (line 253):
json.dumps of the dict mapping "error" to "Respuesta inválida del
servidor", with ensure_ascii escaping. -/
def cargaErrorEstandar : String :=
  "\x7b\"error\": \"Respuesta inv\\u00e1lida del servidor\"\x7d"

/-- Reply forwarding of handle_worker_message (lines 242-257).  `jsonOk`
stands for the verdict of `json.loads` on a payload (the broker only
observes success or JSONDecodeError, so the parser enters the embedding as
an oracle).  When the last rest-frame fails to parse it is replaced by
`cargaErrorEstandar`; the message sent to the client is
[client_address, empty] ++ rest_frames. -/
def relayFrames (jsonOk : String → Bool) (client_address empty : String)
    (rest_frames : List String) : List String :=
  let rest' :=
    match rest_frames.getLast? with
    | none => rest_frames
    | some ultimo =>
      if jsonOk ultimo then rest_frames
      else rest_frames.dropLast ++ [cargaErrorEstandar]
  client_address :: empty :: rest'

/-! Standby failover monitor (DTI_servidor_backup.py). -/

/-- The failover flags of ServidorDTIRespaldo: `servidor_activo` (this
standby has promoted itself and instantiated its own ServidorDTI) and
`servidor_principal_vivo` (the primary's heartbeat was seen within the
timeout). -/
structure RespaldoState where
  servidor_activo : Bool
  servidor_principal_vivo : Bool
deriving DecidableEq, Repr

/-- Standby state at startup (constructor lines 47-48). -/
def respaldoInicial : RespaldoState :=
  { servidor_activo := false, servidor_principal_vivo := true }

/-- One observation of the heartbeat monitor loop
(iniciar_monitor_latidos, lines 142-160): either a beacon arrived within
the poll timeout, or the poll expired with no beacon. -/
inductive LatidoObs where
  | latido
  | sinLatido
deriving DecidableEq, Repr

/-- Effect of one monitor observation on the failover flags.  A beacon sets
`servidor_principal_vivo` and touches nothing else; a timeout while the
primary was considered alive clears `servidor_principal_vivo` and — when not
already active — calls activar_servidor, which sets `servidor_activo`
(line 278) and never clears it. -/
def monitorPaso (s : RespaldoState) : LatidoObs → RespaldoState
  | .latido => { s with servidor_principal_vivo := true }
  | .sinLatido =>
    if s.servidor_principal_vivo then
      { servidor_principal_vivo := false, servidor_activo := true }
    else s

/-- Run a sequence of monitor observations. -/
def monitorRun (s : RespaldoState) (obs : List LatidoObs) : RespaldoState :=
  obs.foldl monitorPaso s

/-! Backup worker admission loop (ServidorDTIRespaldo.hilo_worker). -/

/-- Abstract state of the hilo_worker admission loop: `sem` is the counter
of `request_semaphore` (initially max_concurrent_requests = 10),
`processing` the number of spawned request threads not yet finished (the
PROCESSING count, tracked by `active_requests`), `inbox` the number of
requests queued on the worker's inbound channel. -/
structure WorkerLoopState where
  sem : Nat
  processing : Nat
  inbox : Nat
deriving DecidableEq, Repr

/-- The concurrency limit: `max_concurrent_requests = 10` (line 55). -/
def max_concurrent_requests : Nat := 10

/-- Worker loop state when hilo_worker starts. -/
def estadoWorkerInicial : WorkerLoopState :=
  { sem := max_concurrent_requests, processing := 0, inbox := 0 }

/-- One iteration of the hilo_worker while-loop body (lines 333-396):
`can_accept_more = request_semaphore.acquire(blocking=False)` (line 336);
when a permit was obtained and a message is pending (`socket.poll(100)`,
line 339), the message is received and a processing thread is spawned;
afterwards (line 385) the permit is released whenever `socket.poll(0)`
reports no pending message — including when the permit admitted a request
that is still processing. -/
def iteracionWorker (s : WorkerLoopState) : WorkerLoopState :=
  if s.sem > 0 then
    if s.inbox > 0 then
      let s1 : WorkerLoopState :=
        { sem := s.sem - 1, processing := s.processing + 1,
          inbox := s.inbox - 1 }
      if s1.inbox = 0 then { s1 with sem := s1.sem + 1 } else s1
    else
      s
  else s

/-- A spawned request thread finishes: the finally-block of
procesar_solicitud_con_tracking (lines 418-425) decrements
`active_requests` and releases the semaphore. -/
def finalizarSolicitud (s : WorkerLoopState) : WorkerLoopState :=
  if s.processing > 0 then
    { s with processing := s.processing - 1, sem := s.sem + 1 }
  else s

/-- A request arrives on the worker's inbound channel. -/
def llegaSolicitud (s : WorkerLoopState) : WorkerLoopState :=
  { s with inbox := s.inbox + 1 }

/-- The interleavable events of the admission loop. -/
inductive WorkerEvent where
  | llega
  | itera
  | termina
deriving DecidableEq, Repr

/-- Effect of one event. -/
def workerPaso (s : WorkerLoopState) : WorkerEvent → WorkerLoopState
  | .llega => llegaSolicitud s
  | .itera => iteracionWorker s
  | .termina => finalizarSolicitud s

/-- Run a schedule of admission-loop events. -/
def workerRun (s : WorkerLoopState) (evs : List WorkerEvent) :
    WorkerLoopState :=
  evs.foldl workerPaso s

/-! State-snapshot application (ServidorDTIRespaldo.actualizar_estado_servidor). -/

/-- One resource record of an incoming StateSnapshot: the per-aula dict of
the sync message, with the tipo/estado strings already through the
`TipoAula(...)` / `EstadoAula(...)` constructors (a snapshot whose strings
fail conversion raises inside the loop and is not considered here). -/
structure AulaSinc where
  id : String
  tipo : TipoAula
  estado : EstadoAula
  capacidad : Nat
  facultad : String
  programa : String
  fecha_solicitud : String
  fecha_asignacion : String
deriving DecidableEq, Repr

/-- An incoming snapshot: the `aulas` dict of the sync message, as an
association list keyed by the dict key `aula_id`. -/
abbrev Snapshot := List (String × AulaSinc)

/-- Update branch of actualizar_estado_servidor (lines 231-240): every
field of the existing Aula is overwritten from the snapshot record, except
the stored `id`, which the loop does not assign. -/
def sobrescribirAula (d : AulaSinc) (a : Aula) : Aula :=
  { id := a.id, tipo := d.tipo, estado := d.estado,
    capacidad := d.capacidad, facultad := d.facultad, programa := d.programa,
    fecha_solicitud := d.fecha_solicitud,
    fecha_asignacion := d.fecha_asignacion }

/-- Insert branch of actualizar_estado_servidor (lines 242-252): a new Aula
built entirely from the snapshot record. -/
def aulaDeSinc (d : AulaSinc) : Aula :=
  { id := d.id, tipo := d.tipo, estado := d.estado,
    capacidad := d.capacidad, facultad := d.facultad, programa := d.programa,
    fecha_solicitud := d.fecha_solicitud,
    fecha_asignacion := d.fecha_asignacion }

/-- Apply one snapshot entry: upsert keyed on the snapshot dict key. -/
def aplicarEntradaSinc (t : Table) (clave : String) (d : AulaSinc) : Table :=
  if clave ∈ t.map Prod.fst then
    t.map fun kv => if kv.1 = clave then (kv.1, sobrescribirAula d kv.2) else kv
  else
    t ++ [(clave, aulaDeSinc d)]

/-- ServidorDTIRespaldo.actualizar_estado_servidor (lines 222-258): fold
the per-resource upsert over the snapshot entries in iteration order. -/
def actualizar_estado_servidor (t : Table) (s : Snapshot) : Table :=
  s.foldl (fun acc kd => aplicarEntradaSinc acc kd.1 kd.2) t

/-- A concrete snapshot record used by the C5 witness: S1 assigned. -/
def sincS1 : AulaSinc :=
  { id := "S1", tipo := TipoAula.salon, estado := EstadoAula.asignada,
    capacidad := 30, facultad := "F", programa := "P",
    fecha_solicitud := "a", fecha_asignacion := "b" }

/-- A concrete snapshot record used by the C5 witness: a new lab L9. -/
def sincL9 : AulaSinc :=
  { id := "L9", tipo := TipoAula.laboratorio,
    estado := EstadoAula.disponible, capacidad := 20, facultad := "",
    programa := "", fecha_solicitud := "", fecha_asignacion := "" }

/-! Derived notions used to state properties of asignar_aulas. -/

/-- The ids of the aulas stored in a table (the values' id fields; equal
to the key list whenever the dict invariant key = aula.id holds). -/
def idsValores (t : Table) : List String := t.map fun kv => kv.2.id

/-- The identity `i` names an aula that is DISPONIBLE in table `t`. -/
def disponibleId (t : Table) (i : String) : Prop :=
  ∃ kv ∈ t, kv.2.id = i ∧ kv.2.estado = EstadoAula.disponible

/-- The resource identities assigned by a response: the salones and the
laboratorios (including converted mobile rooms) of a success response,
nothing for the unavailable and error shapes. -/
def idsRespuesta : Respuesta → List String
  | Respuesta.exito _ _ _ ss ls _ => ss ++ ls
  | _ => []

/-- Sequential (serialized) processing of a list of requests: each
asignar_aulas call runs to completion on the table left by the previous
one — the execution obtained when the per-request threads of
DTI_servidor.py main do not interleave inside asignar_aulas. -/
def procesoSecuencial (t : Table) :
    List (Solicitud × String) → List Respuesta × Table
  | [] => ([], t)
  | sm :: rest =>
    let r := asignar_aulas t sm.1 sm.2
    let resto := procesoSecuencial r.2 rest
    (r.1 :: resto.1, resto.2)

/-! Helper lemmas about the broker queue operations. -/

theorem cleanupAux_nodup (l seen : List Addr) :
    (cleanupAux seen l).Nodup ∧ ∀ x ∈ cleanupAux seen l, x ∉ seen := by
  induction l generalizing seen with
  | nil => simp [cleanupAux]
  | cons w rest ih =>
    by_cases hw : w ∈ seen
    · simpa [cleanupAux, hw] using ih seen
    · have h2 := ih (w :: seen)
      refine ⟨?_, ?_⟩
      · simp only [cleanupAux, hw, if_false, List.nodup_cons]
        refine ⟨fun hmem => ?_, h2.1⟩
        have := h2.2 w hmem
        simp at this
      · intro x hx
        simp only [cleanupAux, hw, if_false, List.mem_cons] at hx
        rcases hx with rfl | hx
        · exact hw
        · have := h2.2 x hx
          intro hxs
          exact this (by simp [hxs])

theorem cleanupAux_sublist (l seen : List Addr) :
    List.Sublist (cleanupAux seen l) l := by
  induction l generalizing seen with
  | nil => simp [cleanupAux]
  | cons w rest ih =>
    by_cases hw : w ∈ seen
    · simp only [cleanupAux, hw, if_true]
      exact (ih seen).cons w
    · simp only [cleanupAux, hw, if_false]
      exact (ih (w :: seen)).cons₂ w

theorem cleanupAux_mem (l seen : List Addr) (x : Addr) :
    x ∈ cleanupAux seen l ↔ x ∈ l ∧ x ∉ seen := by
  induction l generalizing seen with
  | nil => simp [cleanupAux]
  | cons w rest ih =>
    by_cases hw : w ∈ seen
    · simp only [cleanupAux, hw, if_true, ih, List.mem_cons]
      constructor
      · rintro ⟨h1, h2⟩
        exact ⟨Or.inr h1, h2⟩
      · rintro ⟨h1 | h1, h2⟩
        · subst h1; exact absurd hw h2
        · exact ⟨h1, h2⟩
    · simp only [cleanupAux, hw, if_false, List.mem_cons, ih]
      constructor
      · rintro (rfl | ⟨h1, h2⟩)
        · exact ⟨Or.inl rfl, hw⟩
        · exact ⟨Or.inr h1, fun hx => h2 (Or.inr hx)⟩
      · rintro ⟨rfl | h1, h2⟩
        · exact Or.inl rfl
        · by_cases hxw : x = w
          · exact Or.inl hxw
          · exact Or.inr ⟨h1, by simp [hxw, h2]⟩

theorem brokerStep_nodup (s : BrokerState) (op : BrokerOp)
    (h : s.available_workers.Nodup) :
    (brokerStep s op).available_workers.Nodup := by
  cases op with
  | ready a =>
    simp only [brokerStep, handleReady]
    split
    · exact h
    · next hna => simp [List.nodup_append, h, hna]
  | reply a =>
    simp only [brokerStep, requeueOnReply]
    split
    · exact h
    · next hna => simp [List.nodup_append, h, hna]
  | dispatch =>
    simp only [brokerStep, get_next_worker]
    cases hq : s.available_workers with
    | nil =>
      simp only [hq]
      exact List.nodup_nil
    | cons w rest =>
      simp only [hq]
      rw [hq] at h
      exact (List.nodup_cons.mp h).2
  | cleanup =>
    simp only [brokerStep, cleanup_worker_list]
    exact (cleanupAux_nodup s.available_workers []).1

theorem brokerRun_nodup (s : BrokerState) (ops : List BrokerOp)
    (h : s.available_workers.Nodup) :
    (brokerRun s ops).available_workers.Nodup := by
  induction ops generalizing s with
  | nil => exact h
  | cons op ops ih =>
    simp only [brokerRun, List.foldl_cons]
    exact ih _ (brokerStep_nodup s op h)

theorem dispatchSeq_fst (s : BrokerState) (r : Nat) :
    (dispatchSeq s r).1 = s.available_workers.take r := by
  induction r generalizing s with
  | zero => simp [dispatchSeq]
  | succ r ih =>
    simp only [dispatchSeq, get_next_worker]
    cases hq : s.available_workers with
    | nil => simp [hq]
    | cons w rest =>
      simp only [hq, List.take_succ_cons]
      rw [ih]

/-! Claim theorems for the broker. -/

/-- C6: worker registration at the broker is idempotent.  Starting from the
broker's initial state, any sequence of READY registrations, reply relays,
dispatches and dedup ticks leaves the idle-worker queue duplicate-free
(each worker address appears at most once); and `cleanup_worker_list`,
applied to an arbitrary (possibly duplicated) queue, yields a
duplicate-free queue that is an order-preserving subsequence of the
original holding exactly the original's addresses. -/
theorem c6_registro_idempotente (ops : List BrokerOp) (l : List Addr)
    (ws : List Addr) :
    (brokerRun brokerInicial ops).available_workers.Nodup
    ∧ (cleanup_worker_list ⟨l, ws⟩).available_workers.Nodup
    ∧ List.Sublist (cleanup_worker_list ⟨l, ws⟩).available_workers l
    ∧ (∀ x, x ∈ (cleanup_worker_list ⟨l, ws⟩).available_workers ↔ x ∈ l) := by
  refine ⟨brokerRun_nodup _ _ (by simp [brokerInicial]), ?_, ?_, ?_⟩
  · exact (cleanupAux_nodup l []).1
  · exact cleanupAux_sublist l []
  · intro x
    simpa using cleanupAux_mem l [] x

/-- C7: the broker dispatches by popping the front of the idle queue and
consumes a client message only when the queue is non-empty: with an empty
queue the pending client message is left unconsumed; with workers
available, the front worker is popped (FIFO) and handed the first pending
message; and for R ≤ W sequential dispatches over a duplicate-free queue of
W idle workers, the dispatched workers are R pairwise-distinct addresses,
so no worker receives a second dispatch before every other idle worker has
received one. -/
theorem c7_round_robin (s : BrokerState) (pendientes : List String)
    (r : Nat) (hnd : s.available_workers.Nodup)
    (hr : r ≤ s.available_workers.length) :
    (s.available_workers = [] →
      brokerLoopCliente s pendientes = (none, s, pendientes))
    ∧ (∀ w rest m ms, s.available_workers = w :: rest → pendientes = m :: ms →
        brokerLoopCliente s pendientes =
          (some (w, m), { s with available_workers := rest }, ms))
    ∧ (dispatchSeq s r).1.Nodup ∧ (dispatchSeq s r).1.length = r := by
  refine ⟨?_, ?_, ?_, ?_⟩
  · intro he
    cases pendientes <;> simp [brokerLoopCliente, he]
  · intro w rest m ms hq hp
    simp [brokerLoopCliente, hq, hp]
  · rw [dispatchSeq_fst]
    exact (List.take_sublist r _).nodup hnd
  · rw [dispatchSeq_fst, List.length_take]
    exact Nat.min_eq_left hr

/-- C7 witness: a concrete broker state with three idle workers and two
pending messages, instantiating every hypothesis of `c7_round_robin`. -/
theorem c7_round_robin_witness :
    (["w1", "w2", "w3"] : List Addr).Nodup ∧ 2 ≤ 3 ∧
    (dispatchSeq ⟨["w1", "w2", "w3"], ["w1", "w2", "w3"]⟩ 2).1.Nodup := by
  refine ⟨by decide, by decide, ?_⟩
  exact (c7_round_robin ⟨["w1", "w2", "w3"], ["w1", "w2", "w3"]⟩ ["m1"] 2
    (by decide) (by decide)).2.2.1

theorem getLast?_cons_cons_ne_nil (a b : String) (l : List String)
    (h : l ≠ []) : (a :: b :: l).getLast? = l.getLast? := by
  rw [List.getLast?_cons_cons]
  cases l with
  | nil => exact absurd rfl h
  | cons c m => exact List.getLast?_cons_cons

/-- C8: on reply relay the broker forwards the worker's payload to the
original client unmodified when it parses as JSON, and otherwise replaces
it with the standardized error payload before relay; in both cases the
payload frame of the relayed message parses, so unparseable bytes are never
forwarded (given that the standardized error payload itself parses, as it
is produced by json.dumps). -/
theorem c8_relevo_respuestas (jsonOk : String → Bool)
    (client_address empty : String) (rest_frames : List String)
    (h0 : rest_frames ≠ [])
    (herr : jsonOk cargaErrorEstandar = true) :
    (∀ ultimo, rest_frames.getLast? = some ultimo → jsonOk ultimo = true →
      relayFrames jsonOk client_address empty rest_frames =
        client_address :: empty :: rest_frames)
    ∧ (∀ sal, (relayFrames jsonOk client_address empty rest_frames).getLast?
        = some sal → jsonOk sal = true) := by
  constructor
  · intro ultimo hlast hok
    simp [relayFrames, hlast, hok]
  · intro sal hsal
    cases hlast : rest_frames.getLast? with
    | none => exact absurd (List.getLast?_eq_none_iff.mp hlast) h0
    | some ultimo =>
      by_cases hok : jsonOk ultimo = true
      · simp only [relayFrames, hlast] at hsal
        rw [if_pos hok, getLast?_cons_cons_ne_nil _ _ _ h0, hlast] at hsal
        simp only [Option.some.injEq] at hsal
        subst hsal
        exact hok
      · simp only [relayFrames, hlast] at hsal
        rw [if_neg hok, getLast?_cons_cons_ne_nil _ _ _ (by simp),
          List.getLast?_concat] at hsal
        simp only [Option.some.injEq] at hsal
        subst hsal
        exact herr

/-- C8 witness: a concrete parser verdict, an unparseable single-frame
reply, and a client address, instantiating every hypothesis of
`c8_relevo_respuestas`. -/
theorem c8_relevo_respuestas_witness :
    (["basura"] : List String) ≠ []
    ∧ ((fun s => s == cargaErrorEstandar) cargaErrorEstandar = true)
    ∧ (∀ sal,
        (relayFrames (fun s => s == cargaErrorEstandar) "cliente" ""
          ["basura"]).getLast? = some sal →
        (fun s => s == cargaErrorEstandar) sal = true) := by
  refine ⟨by decide, by decide, ?_⟩
  exact (c8_relevo_respuestas (fun s => s == cargaErrorEstandar) "cliente" ""
    ["basura"] (by decide) (by decide)).2

/-- C9: the standby's failover flag is terminal for the process lifetime.
A beacon observation never changes `servidor_activo`; and once the standby
has promoted itself (`servidor_activo = true`), any further sequence of
heartbeat observations — including the original primary resuming its
beacons — leaves it active: no observation ever clears the flag. -/
theorem c9_activo_terminal (s : RespaldoState) (obs : List LatidoObs)
    (h : s.servidor_activo = true) :
    (monitorPaso s LatidoObs.latido).servidor_activo = s.servidor_activo
    ∧ (monitorRun s obs).servidor_activo = true := by
  refine ⟨rfl, ?_⟩
  induction obs generalizing s with
  | nil => exact h
  | cons o os ih =>
    simp only [monitorRun, List.foldl_cons]
    apply ih
    cases o with
    | latido => exact h
    | sinLatido =>
      simp only [monitorPaso]
      split <;> simp [h]

/-- C9 witness: a promoted standby observes the primary's heartbeat
resuming (beacon, silence, beacon) and remains active. -/
theorem c9_activo_terminal_witness :
    (monitorRun { servidor_activo := true, servidor_principal_vivo := false }
      [LatidoObs.latido, LatidoObs.sinLatido,
        LatidoObs.latido]).servidor_activo = true :=
  (c9_activo_terminal
    { servidor_activo := true, servidor_principal_vivo := false }
    [LatidoObs.latido, LatidoObs.sinLatido, LatidoObs.latido] rfl).2

/-- C3: refutation of the admission bound on the code as written.  Under
the schedule where eleven requests arrive one per loop iteration (so that
`socket.poll(0)` at line 385 sees an empty channel right after each
admission and releases the admitted request's permit), the backup worker
loop reaches eleven simultaneous PROCESSING requests while configured with
`max_concurrent_requests = 10`; the semaphore never blocks an admission in
this schedule. -/
theorem c3_limite_admision_violado :
    (workerRun estadoWorkerInicial
      (List.replicate 11 [WorkerEvent.llega, WorkerEvent.itera]).flatten)
      = { sem := 10, processing := 11, inbox := 0 }
    ∧ max_concurrent_requests < 11 := by decide

/-! Claims about asignar_aulas rejection paths. -/

/-- C2 counterexample: with a Resource Table of two available salones and a
request for 1 salón and 3 laboratorios, the lab-portion check fails only
after the salon portion has mutated the table, so `asignar_aulas` returns
the unavailable shape yet the Resource Table is NOT left unchanged (S1 is
now assigned in memory) — refuting the zero-mutation part of the claim. -/
theorem c2_contraejemplo :
    ((asignar_aulas
        [("S1", salonLibre "S1" 30), ("S2", salonLibre "S2" 30)]
        { facultad := "F", programa := "P", semestre := 1,
          salones := 1, laboratorios := 3 } "T").1
      = Respuesta.noDisponible (mensajeSinLabs 3 0 1))
    ∧ (asignar_aulas
        [("S1", salonLibre "S1" 30), ("S2", salonLibre "S2" 30)]
        { facultad := "F", programa := "P", semestre := 1,
          salones := 1, laboratorios := 3 } "T").2
      ≠ [("S1", salonLibre "S1" 30), ("S2", salonLibre "S2" 30)] := by
  decide

/-- C2 amended: a salon-portion rejection (first check, line 139) returns
exactly the unavailable-shaped response with the Resource Table unchanged;
a lab-portion rejection (second check, line 168) also returns the
unavailable shape, but the table retains exactly the salon-portion
assignments already performed — so every unavailable response leaves the
table either untouched or with precisely the salon-portion mutation. -/
theorem c2_rechazo_unavailable (t : Table) (sol : Solicitud)
    (marca : String) :
    ((t.filter fun kv => esSalonDisponible kv.2).length < sol.salones →
      asignar_aulas t sol marca =
        (Respuesta.noDisponible (mensajeSinSalones sol.salones
          (t.filter fun kv => esSalonDisponible kv.2).length), t))
    ∧ (∀ m t', asignar_aulas t sol marca = (Respuesta.noDisponible m, t') →
        t' = t ∨ t' = actualizarClaves t
          (((t.filter fun kv => esSalonDisponible kv.2).take
              sol.salones).map Prod.fst)
          (asignarCampos sol.facultad sol.programa marca)) := by
  constructor
  · intro h
    simp only [asignar_aulas, asignarDesdeScan]
    rw [if_pos h]
  · intro m t' h
    simp only [asignar_aulas, asignarDesdeScan] at h
    split at h
    · rw [Prod.mk.injEq] at h
      exact Or.inl h.2.symm
    · split at h
      · rw [Prod.mk.injEq] at h
        exact Or.inr h.2.symm
      · rw [Prod.mk.injEq] at h
        exact absurd h.1 (by simp)

/-- C2 amended witness: an empty table, a request for one salon — the
first availability check fails, the response is the unavailable shape and
the table is returned unchanged. -/
theorem c2_rechazo_unavailable_witness :
    (([] : Table).filter fun kv => esSalonDisponible kv.2).length < 1
    ∧ asignar_aulas []
        { facultad := "F", programa := "P", semestre := 1,
          salones := 1, laboratorios := 0 } "T"
      = (Respuesta.noDisponible (mensajeSinSalones 1 0), []) :=
  ⟨by decide,
    (c2_rechazo_unavailable []
      { facultad := "F", programa := "P", semestre := 1,
        salones := 1, laboratorios := 0 } "T").1 (by decide)⟩

/-- C1 counterexample: `asignar_aulas` runs on a plain per-request thread
and takes no lock, so one thread can be preempted between its
availability scan (line 135) and its mutation loop (line 147) — the
factoring `asignar_aulas t = asignarDesdeScan (t.filter ...) t` holds
definitionally.  With a single available salon S1: thread A computes its
scan of the initial table, thread B's entire call then runs and assigns
S1, and thread A resumes on the mutated table with its stale scan.  Both
calls return a success response assigning S1, so the room identities
across successful responses are NOT pairwise disjoint and no
mutual-exclusion guard exists to prevent it. -/
theorem c1_contraejemplo :
    (asignar_aulas [("S1", salonLibre "S1" 30)]
        { facultad := "B", programa := "PB", semestre := 1,
          salones := 1, laboratorios := 0 } "T").1
      = Respuesta.exito "B" "PB" 1 ["S1"] [] none
    ∧ (asignarDesdeScan
        (List.filter (fun kv => esSalonDisponible kv.2)
          [("S1", salonLibre "S1" 30)])
        (asignar_aulas [("S1", salonLibre "S1" 30)]
          { facultad := "B", programa := "PB", semestre := 1,
            salones := 1, laboratorios := 0 } "T").2
        { facultad := "A", programa := "PA", semestre := 1,
          salones := 1, laboratorios := 0 } "T").1
      = Respuesta.exito "A" "PA" 1 ["S1"] [] none := by
  decide

/-! Helper lemmas about the snapshot upsert. -/

theorem aplicarEntradaSinc_fst (t : Table) (k : String) (d : AulaSinc) :
    (aplicarEntradaSinc t k d).map Prod.fst =
      if k ∈ t.map Prod.fst then t.map Prod.fst
      else t.map Prod.fst ++ [k] := by
  simp only [aplicarEntradaSinc]
  split
  · next hk =>
    rw [List.map_map]
    apply List.map_congr_left
    intro kv _
    by_cases h0 : kv.1 = k <;> simp [h0]
  · simp

theorem mem_fst_aplicarEntradaSinc (t : Table) (k k' : String)
    (d : AulaSinc) (h : k' ∈ t.map Prod.fst) :
    k' ∈ (aplicarEntradaSinc t k d).map Prod.fst := by
  rw [aplicarEntradaSinc_fst]
  split
  · exact h
  · exact List.mem_append_left _ h

theorem clave_mem_aplicarEntradaSinc (t : Table) (k : String)
    (d : AulaSinc) : k ∈ (aplicarEntradaSinc t k d).map Prod.fst := by
  rw [aplicarEntradaSinc_fst]
  split
  · next hk => exact hk
  · exact List.mem_append_right _ (by simp)

theorem aplicarEntradaSinc_otro (t : Table) (k : String) (d : AulaSinc)
    (kv : String × Aula) (hne : kv.1 ≠ k) :
    kv ∈ aplicarEntradaSinc t k d ↔ kv ∈ t := by
  simp only [aplicarEntradaSinc]
  split
  · constructor
    · intro h
      obtain ⟨kv0, hkv0, heq⟩ := List.mem_map.mp h
      by_cases h0 : kv0.1 = k
      · rw [if_pos h0] at heq
        rw [← heq] at hne
        exact absurd h0 hne
      · rw [if_neg h0] at heq
        rw [← heq]
        exact hkv0
    · intro h
      refine List.mem_map.mpr ⟨kv, h, ?_⟩
      rw [if_neg hne]
  · rw [List.mem_append]
    constructor
    · rintro (h | h)
      · exact h
      · simp only [List.mem_singleton] at h
        rw [h] at hne
        exact absurd rfl hne
    · exact Or.inl

theorem aplicarEntradaSinc_clave (t : Table) (k : String) (d : AulaSinc)
    (hid : ∀ kv ∈ t, kv.1 = k → kv.2.id = k) (hd : d.id = k) :
    ∀ kv ∈ aplicarEntradaSinc t k d, kv.1 = k → kv.2 = aulaDeSinc d := by
  intro kv hkv hk
  simp only [aplicarEntradaSinc] at hkv
  split at hkv
  · obtain ⟨kv0, hkv0, heq⟩ := List.mem_map.mp hkv
    by_cases h0 : kv0.1 = k
    · rw [if_pos h0] at heq
      have hidv := hid kv0 hkv0 h0
      rw [← heq]
      simp [sobrescribirAula, aulaDeSinc, hidv, hd]
    · rw [if_neg h0] at heq
      rw [← heq] at hk
      exact absurd hk h0
  · next hnk =>
    rcases List.mem_append.mp hkv with h | h
    · exact absurd (hk ▸ List.mem_map_of_mem Prod.fst h) hnk
    · simp only [List.mem_singleton] at h
      rw [h]

theorem aplicarEntradaSinc_inv (t : Table) (k : String) (d : AulaSinc)
    (hts : ∀ kv ∈ t, kv.2.id = kv.1) (hd : d.id = k) :
    ∀ kv ∈ aplicarEntradaSinc t k d, kv.2.id = kv.1 := by
  intro kv hkv
  simp only [aplicarEntradaSinc] at hkv
  split at hkv
  · obtain ⟨kv0, hkv0, heq⟩ := List.mem_map.mp hkv
    by_cases h0 : kv0.1 = k
    · rw [if_pos h0] at heq
      rw [← heq]
      simp only [sobrescribirAula]
      exact hts kv0 hkv0
    · rw [if_neg h0] at heq
      rw [← heq]
      exact hts kv0 hkv0
  · rcases List.mem_append.mp hkv with h | h
    · exact hts kv h
    · simp only [List.mem_singleton] at h
      rw [h]
      simpa [aulaDeSinc] using hd

theorem aplicarEntradaSinc_identidad (t : Table) (k : String) (d : AulaSinc)
    (hk : k ∈ t.map Prod.fst)
    (hv : ∀ kv ∈ t, kv.1 = k → kv.2 = aulaDeSinc d) :
    aplicarEntradaSinc t k d = t := by
  simp only [aplicarEntradaSinc, if_pos hk]
  have : ∀ kv ∈ t,
      (if kv.1 = k then (kv.1, sobrescribirAula d kv.2) else kv) = kv := by
    rintro ⟨k1, a1⟩ hkv
    by_cases h0 : k1 = k
    · rw [if_pos h0]
      have := hv (k1, a1) hkv h0
      simp only at this
      rw [this]
      simp [sobrescribirAula, aulaDeSinc]
    · rw [if_neg h0]
  rw [List.map_congr_left this]
  simp

/-- Accumulated facts about one pass of actualizar_estado_servidor, proved
by induction over the snapshot. -/
theorem actualizar_estado_props (s : Snapshot) (t : Table)
    (hnd : (s.map Prod.fst).Nodup)
    (hts : ∀ kv ∈ t, kv.2.id = kv.1)
    (hss : ∀ kd ∈ s, kd.2.id = kd.1) :
    (∀ k', k' ∈ t.map Prod.fst →
      k' ∈ (actualizar_estado_servidor t s).map Prod.fst)
    ∧ (∀ kd ∈ s, kd.1 ∈ (actualizar_estado_servidor t s).map Prod.fst)
    ∧ (∀ kd ∈ s, ∀ kv ∈ actualizar_estado_servidor t s, kv.1 = kd.1 →
        kv.2 = aulaDeSinc kd.2)
    ∧ (∀ kv ∈ t, kv.1 ∉ s.map Prod.fst →
        kv ∈ actualizar_estado_servidor t s)
    ∧ (∀ kv ∈ actualizar_estado_servidor t s, kv.1 ∉ s.map Prod.fst →
        kv ∈ t)
    ∧ (∀ kv ∈ actualizar_estado_servidor t s, kv.2.id = kv.1) := by
  induction s generalizing t with
  | nil =>
    simp only [actualizar_estado_servidor, List.foldl_nil]
    exact ⟨fun _ h => h, by simp, by simp, fun kv h _ => h,
      fun kv h _ => h, hts⟩
  | cons kd rest ih =>
    obtain ⟨k, d⟩ := kd
    have hd : d.id = k := hss (k, d) (by simp)
    have hnd' : (rest.map Prod.fst).Nodup := (List.nodup_cons.mp hnd).2
    have hknotin : k ∉ rest.map Prod.fst := (List.nodup_cons.mp hnd).1
    have hts' : ∀ kv ∈ aplicarEntradaSinc t k d, kv.2.id = kv.1 :=
      aplicarEntradaSinc_inv t k d hts hd
    have hss' : ∀ kd' ∈ rest, kd'.2.id = kd'.1 := by
      intro kd' h
      exact hss kd' (List.mem_cons_of_mem _ h)
    have heq : actualizar_estado_servidor t ((k, d) :: rest)
        = actualizar_estado_servidor (aplicarEntradaSinc t k d) rest := rfl
    obtain ⟨ih1, ih2, ih3, ih4, ih5, ih6⟩ :=
      ih (aplicarEntradaSinc t k d) hnd' hts' hss'
    rw [heq]
    refine ⟨?_, ?_, ?_, ?_, ?_, ih6⟩
    · intro k' h
      exact ih1 k' (mem_fst_aplicarEntradaSinc t k k' d h)
    · rintro kd' hkd'
      rcases List.mem_cons.mp hkd' with h | h
      · rw [h]
        exact ih1 k (clave_mem_aplicarEntradaSinc t k d)
      · exact ih2 kd' h
    · rintro kd' hkd' kv hkv hk1
      rcases List.mem_cons.mp hkd' with h | h
      · rw [h] at hk1 ⊢
        simp only at hk1 ⊢
        have hkv' : kv ∈ aplicarEntradaSinc t k d :=
          ih5 kv hkv (hk1 ▸ hknotin)
        exact aplicarEntradaSinc_clave t k d
          (fun kv0 h0 hk0 => (hts kv0 h0).trans hk0) hd kv hkv' hk1
      · exact ih3 kd' h kv hkv hk1
    · intro kv hkv hnmem
      simp only [List.map_cons, List.mem_cons] at hnmem
      push_neg at hnmem
      have hkv' : kv ∈ aplicarEntradaSinc t k d :=
        (aplicarEntradaSinc_otro t k d kv hnmem.1).mpr hkv
      exact ih4 kv hkv' hnmem.2
    · intro kv hkv hnmem
      simp only [List.map_cons, List.mem_cons] at hnmem
      push_neg at hnmem
      have hkv' : kv ∈ aplicarEntradaSinc t k d := ih5 kv hkv hnmem.2
      exact (aplicarEntradaSinc_otro t k d kv hnmem.1).mp hkv'

/-- A snapshot pass over a table that already realizes the snapshot is the
identity. -/
theorem actualizar_estado_identidad (s : Snapshot) (t : Table)
    (h1 : ∀ kd ∈ s, kd.1 ∈ t.map Prod.fst)
    (h2 : ∀ kd ∈ s, ∀ kv ∈ t, kv.1 = kd.1 → kv.2 = aulaDeSinc kd.2) :
    actualizar_estado_servidor t s = t := by
  induction s with
  | nil => rfl
  | cons kd rest ih =>
    have hid : aplicarEntradaSinc t kd.1 kd.2 = t :=
      aplicarEntradaSinc_identidad t kd.1 kd.2 (h1 kd (by simp))
        (fun kv hkv hk => h2 kd (by simp) kv hkv hk)
    have heq : actualizar_estado_servidor t (kd :: rest)
        = actualizar_estado_servidor (aplicarEntradaSinc t kd.1 kd.2) rest :=
      rfl
    rw [heq, hid]
    exact ih (fun kd' h => h1 kd' (List.mem_cons_of_mem _ h))
      (fun kd' h => h2 kd' (List.mem_cons_of_mem _ h))

/-- C5: applying a StateSnapshot is a per-resource upsert and is
idempotent.  For a snapshot with duplicate-free keys whose records carry
their own key as id (as produced by enviar_estado_para_sincronizacion) and
a table whose stored ids match their dict keys: every snapshot identity is
present afterwards (update or insert); every table entry matching a
snapshot key has every field overwritten by the incoming record; no
identity of the original table is deleted; identities absent from the
snapshot keep their entries untouched; and applying the same snapshot a
second time changes nothing (field-for-field identical table). -/
theorem c5_sinc_upsert_idempotente (t : Table) (s : Snapshot)
    (hnd : (s.map Prod.fst).Nodup)
    (hts : ∀ kv ∈ t, kv.2.id = kv.1)
    (hss : ∀ kd ∈ s, kd.2.id = kd.1) :
    (∀ kd ∈ s, kd.1 ∈ (actualizar_estado_servidor t s).map Prod.fst)
    ∧ (∀ kd ∈ s, ∀ kv ∈ actualizar_estado_servidor t s, kv.1 = kd.1 →
        kv.2 = aulaDeSinc kd.2)
    ∧ (∀ kv ∈ t, kv.1 ∈ (actualizar_estado_servidor t s).map Prod.fst)
    ∧ (∀ kv ∈ t, kv.1 ∉ s.map Prod.fst →
        kv ∈ actualizar_estado_servidor t s)
    ∧ actualizar_estado_servidor (actualizar_estado_servidor t s) s
        = actualizar_estado_servidor t s := by
  obtain ⟨h1, h2, h3, h4, h5, _⟩ := actualizar_estado_props s t hnd hts hss
  exact ⟨h2, h3, fun kv hkv => h1 kv.1 (List.mem_map_of_mem Prod.fst hkv),
    h4, actualizar_estado_identidad s _ h2 h3⟩

/-- C5 witness: a one-row table and a two-entry snapshot (one overwrite,
one insert); all hypotheses of `c5_sinc_upsert_idempotente` hold and the
second application changes nothing. -/
theorem c5_sinc_upsert_idempotente_witness :
    (([("S1", sincS1), ("L9", sincL9)] : Snapshot).map Prod.fst).Nodup
    ∧ (∀ kv ∈ ([("S1", salonLibre "S1" 30)] : Table), kv.2.id = kv.1)
    ∧ (∀ kd ∈ ([("S1", sincS1), ("L9", sincL9)] : Snapshot),
        kd.2.id = kd.1)
    ∧ actualizar_estado_servidor
        (actualizar_estado_servidor [("S1", salonLibre "S1" 30)]
          [("S1", sincS1), ("L9", sincL9)])
        [("S1", sincS1), ("L9", sincL9)]
      = actualizar_estado_servidor [("S1", salonLibre "S1" 30)]
          [("S1", sincS1), ("L9", sincL9)] :=
  ⟨by decide, by decide, by decide,
    (c5_sinc_upsert_idempotente [("S1", salonLibre "S1" 30)]
      [("S1", sincS1), ("L9", sincL9)]
      (by decide) (by decide) (by decide)).2.2.2.2⟩

/-! Helper lemmas about actualizarClaves and the mutation steps of
asignar_aulas. -/

theorem asignarCampos_id (f p m : String) (a : Aula) :
    (asignarCampos f p m a).id = a.id := rfl

theorem asignarCampos_estado (f p m : String) (a : Aula) :
    (asignarCampos f p m a).estado = EstadoAula.asignada := rfl

theorem convertirEnMovil_id (f p m : String) (a : Aula) :
    (convertirEnMovil f p m a).id = a.id := rfl

theorem convertirEnMovil_estado (f p m : String) (a : Aula) :
    (convertirEnMovil f p m a).estado = EstadoAula.asignada := rfl

theorem mem_actualizarClaves (t : Table) (ks : List String)
    (f : Aula → Aula) (kv : String × Aula)
    (h : kv ∈ actualizarClaves t ks f) :
    (kv ∈ t ∧ kv.1 ∉ ks)
    ∨ ∃ kv0, kv0 ∈ t ∧ kv0.1 ∈ ks ∧ kv = (kv0.1, f kv0.2) := by
  simp only [actualizarClaves] at h
  obtain ⟨kv0, hkv0, heq⟩ := List.mem_map.mp h
  by_cases h0 : kv0.1 ∈ ks
  · rw [if_pos h0] at heq
    exact Or.inr ⟨kv0, hkv0, h0, heq.symm⟩
  · rw [if_neg h0] at heq
    rw [← heq]
    exact Or.inl ⟨hkv0, h0⟩

theorem actualizarClaves_disponible (t : Table) (ks : List String)
    (f : Aula → Aula)
    (hf : ∀ a, (f a).estado = EstadoAula.asignada)
    (kv : String × Aula) (h : kv ∈ actualizarClaves t ks f)
    (hd : kv.2.estado = EstadoAula.disponible) : kv ∈ t ∧ kv.1 ∉ ks := by
  rcases mem_actualizarClaves t ks f kv h with h1 | ⟨kv0, _, _, heq⟩
  · exact h1
  · rw [heq] at hd
    simp only [hf kv0.2] at hd
    exact absurd hd (by simp)

theorem disponibleId_actualizarClaves (t : Table) (ks : List String)
    (f : Aula → Aula)
    (hf : ∀ a, (f a).estado = EstadoAula.asignada) (i : String)
    (h : disponibleId (actualizarClaves t ks f) i) : disponibleId t i := by
  obtain ⟨kv, hkv, hid, hdisp⟩ := h
  exact ⟨kv, (actualizarClaves_disponible t ks f hf kv hkv hdisp).1,
    hid, hdisp⟩

theorem idsValores_actualizarClaves (t : Table) (ks : List String)
    (f : Aula → Aula) (hf : ∀ a, (f a).id = a.id) :
    idsValores (actualizarClaves t ks f) = idsValores t := by
  simp only [idsValores, actualizarClaves, List.map_map]
  apply List.map_congr_left
  intro kv _
  by_cases h0 : kv.1 ∈ ks
  · simp [h0, hf]
  · simp [h0]

/-- After marking the entries with keys `ks` assigned, the id of a marked
entry of `t` is no longer available — provided the table's value ids are
duplicate-free, so no second entry shares the id. -/
theorem no_disponible_tras_actualizar (t : Table) (ks : List String)
    (f : Aula → Aula)
    (hfe : ∀ a, (f a).estado = EstadoAula.asignada)
    (hnd : (idsValores t).Nodup)
    (kv0 : String × Aula) (h0 : kv0 ∈ t) (hk : kv0.1 ∈ ks) :
    ¬ disponibleId (actualizarClaves t ks f) kv0.2.id := by
  rintro ⟨kv, hkv, hid, hdisp⟩
  simp only [idsValores] at hnd
  obtain ⟨hkvt, hkvks⟩ :=
    actualizarClaves_disponible t ks f hfe kv hkv hdisp
  have hinj := List.inj_on_of_nodup_map (f := fun kv => kv.2.id)
    (l := t) hnd hkvt h0 hid
  rw [hinj] at hkvks
  exact hkvks hk

theorem esSalonDisponible_eq (a : Aula) (h : esSalonDisponible a = true) :
    a.tipo = TipoAula.salon ∧ a.estado = EstadoAula.disponible :=
  of_decide_eq_true h

theorem esLabDisponible_eq (a : Aula) (h : esLabDisponible a = true) :
    a.tipo = TipoAula.laboratorio ∧ a.estado = EstadoAula.disponible :=
  of_decide_eq_true h

theorem movilFiltro_eq (ss : List String) (kv : String × Aula)
    (h : (esSalonDisponible kv.2 && !(decide (kv.2.id ∈ ss))) = true) :
    kv.2.estado = EstadoAula.disponible ∧ kv.2.id ∉ ss := by
  rw [Bool.and_eq_true] at h
  obtain ⟨h1, h2⟩ := h
  refine ⟨(esSalonDisponible_eq kv.2 h1).2, ?_⟩
  simpa using h2

/-- An id chosen by a take-of-filter scan comes from a table entry
satisfying the filter, and its key is among the keys of the chosen
entries. -/
theorem elegido_spec (t : Table) (q : String × Aula → Bool) (n : Nat)
    (i : String)
    (hi : i ∈ ((t.filter q).take n).map fun kv => kv.2.id) :
    ∃ kv, kv ∈ t ∧ q kv = true ∧ kv.2.id = i ∧
      kv.1 ∈ ((t.filter q).take n).map Prod.fst := by
  obtain ⟨kv, hkv, rfl⟩ := List.mem_map.mp hi
  have hmem := List.mem_of_mem_take hkv
  have hf := List.mem_filter.mp hmem
  exact ⟨kv, hf.1, hf.2, rfl, List.mem_map_of_mem Prod.fst hkv⟩

/-- Ids chosen by a take-of-filter scan are duplicate-free when the
table's value ids are. -/
theorem elegido_nodup (t : Table) (q : String × Aula → Bool) (n : Nat)
    (hnd : (idsValores t).Nodup) :
    (((t.filter q).take n).map fun kv => kv.2.id).Nodup := by
  have hsub : List.Sublist ((t.filter q).take n) t :=
    (List.take_sublist _ _).trans (List.filter_sublist t)
  simp only [idsValores] at hnd
  exact (hsub.map fun kv => kv.2.id).nodup hnd

/-- Any identity available after an asignar_aulas call was available
before it: the call only turns DISPONIBLE entries into ASIGNADA ones. -/
theorem asignar_mono_disponible (t : Table) (sol : Solicitud)
    (marca : String) (i : String)
    (h : disponibleId (asignar_aulas t sol marca).2 i) : disponibleId t i := by
  simp only [asignar_aulas, asignarDesdeScan] at h
  split at h
  · exact h
  · split at h
    · exact disponibleId_actualizarClaves _ _ _
        (asignarCampos_estado sol.facultad sol.programa marca) i h
    · split at h
      · have h2 := disponibleId_actualizarClaves _ _ _
          (convertirEnMovil_estado sol.facultad sol.programa marca) i h
        have h1 := disponibleId_actualizarClaves _ _ _
          (asignarCampos_estado sol.facultad sol.programa marca) i h2
        exact disponibleId_actualizarClaves _ _ _
          (asignarCampos_estado sol.facultad sol.programa marca) i h1
      · have h1 := disponibleId_actualizarClaves _ _ _
          (asignarCampos_estado sol.facultad sol.programa marca) i h
        exact disponibleId_actualizarClaves _ _ _
          (asignarCampos_estado sol.facultad sol.programa marca) i h1

/-- An asignar_aulas call never changes the list of stored ids. -/
theorem asignar_idsValores (t : Table) (sol : Solicitud) (marca : String) :
    idsValores (asignar_aulas t sol marca).2 = idsValores t := by
  simp only [asignar_aulas, asignarDesdeScan]
  split
  · rfl
  · split
    · exact idsValores_actualizarClaves _ _ _ (asignarCampos_id _ _ _)
    · split
      · exact (idsValores_actualizarClaves _ _ _
          (convertirEnMovil_id _ _ _)).trans
          ((idsValores_actualizarClaves _ _ _
            (asignarCampos_id _ _ _)).trans
            (idsValores_actualizarClaves _ _ _ (asignarCampos_id _ _ _)))
      · exact (idsValores_actualizarClaves _ _ _
          (asignarCampos_id _ _ _)).trans
          (idsValores_actualizarClaves _ _ _ (asignarCampos_id _ _ _))

/-- Central analysis of one asignar_aulas call over a table with
duplicate-free value ids. -/
theorem asignar_analisis (t : Table) (sol : Solicitud) (marca : String)
    (hnd : (idsValores t).Nodup) :
    (∀ i ∈ idsRespuesta (asignar_aulas t sol marca).1,
      disponibleId t i ∧ ¬ disponibleId (asignar_aulas t sol marca).2 i)
    ∧ (idsRespuesta (asignar_aulas t sol marca).1).Nodup := by
  simp only [asignar_aulas, asignarDesdeScan]
  split
  · simp [idsRespuesta]
  · split
    · simp [idsRespuesta]
    · set scan := List.filter (fun kv => esSalonDisponible kv.2) t with hscan
      set el1 := List.take sol.salones scan with hel1
      set ss := List.map (fun kv => kv.2.id) el1 with hss
      set ks1 := List.map Prod.fst el1 with hks1
      set t1 := actualizarClaves t ks1
        (asignarCampos sol.facultad sol.programa marca) with ht1
      set labsL := List.filter (fun kv => esLabDisponible kv.2) t1 with hlabsL
      set el2 := List.take sol.laboratorios labsL with hel2
      set labs := List.map (fun kv => kv.2.id) el2 with hlabs
      set ks2 := List.map Prod.fst el2 with hks2
      set t2 := actualizarClaves t1 ks2
        (asignarCampos sol.facultad sol.programa marca) with ht2
      set filtM := List.filter
        (fun kv => esSalonDisponible kv.2 && !decide (kv.2.id ∈ ss)) t2
        with hfiltM
      set el3 := List.take (sol.laboratorios - labs.length) filtM with hel3
      set movs := List.map (fun kv => kv.2.id) el3 with hmovs
      set ks3 := List.map Prod.fst el3 with hks3
      set t3 := actualizarClaves t2 ks3
        (convertirEnMovil sol.facultad sol.programa marca) with ht3
      have hIdsT1 : idsValores t1 = idsValores t := by
        rw [ht1]
        exact idsValores_actualizarClaves _ _ _ (asignarCampos_id _ _ _)
      have hIdsT2 : idsValores t2 = idsValores t := by
        rw [ht2, idsValores_actualizarClaves _ _ _ (asignarCampos_id _ _ _)]
        exact hIdsT1
      have hndT1 : (idsValores t1).Nodup := by rw [hIdsT1]; exact hnd
      have hndT2 : (idsValores t2).Nodup := by rw [hIdsT2]; exact hnd
      have hT1toT : ∀ i, disponibleId t1 i → disponibleId t i := by
        intro i h
        rw [ht1] at h
        exact disponibleId_actualizarClaves _ _ _
          (asignarCampos_estado sol.facultad sol.programa marca) i h
      have hT2toT1 : ∀ i, disponibleId t2 i → disponibleId t1 i := by
        intro i h
        rw [ht2] at h
        exact disponibleId_actualizarClaves _ _ _
          (asignarCampos_estado sol.facultad sol.programa marca) i h
      have hT3toT2 : ∀ i, disponibleId t3 i → disponibleId t2 i := by
        intro i h
        rw [ht3] at h
        exact disponibleId_actualizarClaves _ _ _
          (convertirEnMovil_estado sol.facultad sol.programa marca) i h
      have hSS : ∀ i ∈ ss, disponibleId t i ∧ ¬ disponibleId t1 i := by
        intro i hi
        rw [hss, hel1, hscan] at hi
        obtain ⟨kv, hkvt, hq, hid, hk⟩ := elegido_spec t _ sol.salones i hi
        constructor
        · exact ⟨kv, hkvt, hid, (esSalonDisponible_eq kv.2 hq).2⟩
        · rw [ht1, hks1, hel1, hscan]
          exact hid ▸ no_disponible_tras_actualizar t _ _
            (asignarCampos_estado sol.facultad sol.programa marca) hnd kv hkvt hk
      have hLABS : ∀ i ∈ labs, disponibleId t1 i ∧ ¬ disponibleId t2 i := by
        intro i hi
        rw [hlabs, hel2, hlabsL] at hi
        obtain ⟨kv, hkvt1, hq, hid, hk⟩ :=
          elegido_spec t1 _ sol.laboratorios i hi
        refine ⟨⟨kv, hkvt1, hid, (esLabDisponible_eq kv.2 hq).2⟩, ?_⟩
        rw [ht2, hks2, hel2, hlabsL]
        exact hid ▸ no_disponible_tras_actualizar t1 _ _
          (asignarCampos_estado sol.facultad sol.programa marca) hndT1 kv hkvt1 hk
      have hMOVS : ∀ i ∈ movs,
          (disponibleId t2 i ∧ i ∉ ss) ∧ ¬ disponibleId t3 i := by
        intro i hi
        rw [hmovs, hel3, hfiltM] at hi
        obtain ⟨kv, hkvt2, hq, hid, hk⟩ :=
          elegido_spec t2 _ (sol.laboratorios - labs.length) i hi
        have hmf := movilFiltro_eq ss kv hq
        refine ⟨⟨⟨kv, hkvt2, hid, hmf.1⟩, hid ▸ hmf.2⟩, ?_⟩
        rw [ht3, hks3, hel3, hfiltM]
        exact hid ▸ no_disponible_tras_actualizar t2 _ _
          (convertirEnMovil_estado sol.facultad sol.programa marca) hndT2 kv hkvt2 hk
      have hndSS : ss.Nodup := by
        rw [hss, hel1, hscan]
        exact elegido_nodup t _ _ hnd
      have hndLABS : labs.Nodup := by
        rw [hlabs, hel2, hlabsL]
        exact elegido_nodup t1 _ _ hndT1
      have hndMOVS : movs.Nodup := by
        rw [hmovs, hel3, hfiltM]
        exact elegido_nodup t2 _ _ hndT2
      have hDisjSL : ∀ i ∈ ss, i ∉ labs := fun i hiS hiL =>
        (hSS i hiS).2 ((hLABS i hiL).1)
      have hDisjSM : ∀ i ∈ ss, i ∉ movs := fun i hiS hiM =>
        (hMOVS i hiM).1.2 hiS
      have hDisjLM : ∀ i ∈ labs, i ∉ movs := fun i hiL hiM =>
        (hLABS i hiL).2 ((hMOVS i hiM).1.1)
      split
      · constructor
        · intro i hi
          simp only [idsRespuesta, List.mem_append] at hi
          rcases hi with hi | hi | hi
          · exact ⟨(hSS i hi).1,
              fun h3 => (hSS i hi).2 (hT2toT1 i (hT3toT2 i h3))⟩
          · exact ⟨hT1toT i (hLABS i hi).1,
              fun h3 => (hLABS i hi).2 (hT3toT2 i h3)⟩
          · exact ⟨hT1toT i (hT2toT1 i (hMOVS i hi).1.1), (hMOVS i hi).2⟩
        · simp only [idsRespuesta]
          rw [List.nodup_append]
          refine ⟨hndSS, ?_, ?_⟩
          · rw [List.nodup_append]
            exact ⟨hndLABS, hndMOVS, hDisjLM⟩
          · intro i hiS hiLM
            rcases List.mem_append.mp hiLM with h | h
            · exact hDisjSL i hiS h
            · exact hDisjSM i hiS h
      · constructor
        · intro i hi
          simp only [idsRespuesta, List.mem_append, List.not_mem_nil,
            or_false] at hi
          rcases hi with hi | hi
          · exact ⟨(hSS i hi).1, fun h2 => (hSS i hi).2 (hT2toT1 i h2)⟩
          · exact ⟨hT1toT i (hLABS i hi).1, (hLABS i hi).2⟩
        · simp only [idsRespuesta, List.append_nil]
          rw [List.nodup_append]
          exact ⟨hndSS, hndLABS, hDisjSL⟩

/-- Every id in any response of a sequential run was available in the
table at the start of the run. -/
theorem secuencial_resp_disponible (sols : List (Solicitud × String))
    (t : Table) (hnd : (idsValores t).Nodup) :
    ∀ r ∈ (procesoSecuencial t sols).1, ∀ i ∈ idsRespuesta r,
      disponibleId t i := by
  induction sols generalizing t with
  | nil =>
    intro r hr
    simp [procesoSecuencial] at hr
  | cons sm rest ih =>
    intro r hr i hi
    simp only [procesoSecuencial, List.mem_cons] at hr
    rcases hr with rfl | hr
    · exact ((asignar_analisis t sm.1 sm.2 hnd).1 i hi).1
    · have hnd2 : (idsValores (asignar_aulas t sm.1 sm.2).2).Nodup := by
        rw [asignar_idsValores]
        exact hnd
      exact asignar_mono_disponible t sm.1 sm.2 i
        (ih (asignar_aulas t sm.1 sm.2).2 hnd2 r hr i hi)

/-- C10: within a single call to asignar_aulas that returns a success
response, over a table with duplicate-free stored ids (the dict
invariant), every assigned identity was DISPONIBLE in the table at the
start of the call, and the returned salones and laboratorios lists
(converted mobile-room ids included) are pairwise disjoint — one request
never assigns the same resource twice, conversion included. -/
theorem c10_sin_doble_asignacion (t : Table) (sol : Solicitud)
    (marca : String) (hnd : (idsValores t).Nodup)
    (f p : String) (sem : Nat) (ss ls : List String) (n : Option String)
    (h : (asignar_aulas t sol marca).1 = Respuesta.exito f p sem ss ls n) :
    (∀ i ∈ ss ++ ls, disponibleId t i) ∧ (ss ++ ls).Nodup := by
  have ha := asignar_analisis t sol marca hnd
  rw [h] at ha
  simp only [idsRespuesta] at ha
  exact ⟨fun i hi => (ha.1 i hi).1, ha.2⟩

/-- C10 witness: a table with one salon and one lab; the request for one
of each succeeds, both assigned ids were available, and the response's id
lists are disjoint. -/
theorem c10_sin_doble_asignacion_witness :
    (idsValores [("S1", salonLibre "S1" 30),
      ("L1", labLibre "L1" 20)]).Nodup
    ∧ (asignar_aulas [("S1", salonLibre "S1" 30), ("L1", labLibre "L1" 20)]
        { facultad := "F", programa := "P", semestre := 1,
          salones := 1, laboratorios := 1 } "T").1
      = Respuesta.exito "F" "P" 1 ["S1"] ["L1"] none
    ∧ ((∀ i ∈ ["S1"] ++ ["L1"],
        disponibleId [("S1", salonLibre "S1" 30),
          ("L1", labLibre "L1" 20)] i)
      ∧ ((["S1"] ++ ["L1"] : List String)).Nodup) :=
  ⟨by decide, by decide,
    c10_sin_doble_asignacion
      [("S1", salonLibre "S1" 30), ("L1", labLibre "L1" 20)]
      { facultad := "F", programa := "P", semestre := 1,
        salones := 1, laboratorios := 1 } "T" (by decide)
      "F" "P" 1 ["S1"] ["L1"] none (by decide)⟩

/-- C1 amended: with no lock in the code, disjointness holds for the
serialized executions.  Processing any list of requests sequentially
(each asignar_aulas call completing before the next begins) over a table
with duplicate-free stored ids yields responses whose assigned room
identities are pairwise disjoint across all successful responses. -/
theorem c1_disjuntos_secuencial (t : Table)
    (sols : List (Solicitud × String))
    (hnd : (idsValores t).Nodup) :
    List.Pairwise
      (fun r1 r2 => ∀ i, i ∈ idsRespuesta r1 → i ∉ idsRespuesta r2)
      (procesoSecuencial t sols).1 := by
  induction sols generalizing t with
  | nil => simp [procesoSecuencial]
  | cons sm rest ih =>
    simp only [procesoSecuencial]
    rw [List.pairwise_cons]
    have hnd2 : (idsValores (asignar_aulas t sm.1 sm.2).2).Nodup := by
      rw [asignar_idsValores]
      exact hnd
    constructor
    · intro r2 hr2 i hi1 hi2
      exact ((asignar_analisis t sm.1 sm.2 hnd).1 i hi1).2
        (secuencial_resp_disponible rest _ hnd2 r2 hr2 i hi2)
    · exact ih _ hnd2

/-- C1 amended witness: two sequential one-salon requests over a
two-salon table; the two success responses assign different salones. -/
theorem c1_disjuntos_secuencial_witness :
    (idsValores [("S1", salonLibre "S1" 30),
      ("S2", salonLibre "S2" 30)]).Nodup
    ∧ List.Pairwise
        (fun r1 r2 => ∀ i, i ∈ idsRespuesta r1 → i ∉ idsRespuesta r2)
        (procesoSecuencial
          [("S1", salonLibre "S1" 30), ("S2", salonLibre "S2" 30)]
          [({ facultad := "A", programa := "PA", semestre := 1,
                salones := 1, laboratorios := 0 }, "T"),
            ({ facultad := "B", programa := "PB", semestre := 1,
                 salones := 1, laboratorios := 0 }, "T")]).1 :=
  ⟨by decide,
    c1_disjuntos_secuencial
      [("S1", salonLibre "S1" 30), ("S2", salonLibre "S2" 30)]
      [({ facultad := "A", programa := "PA", semestre := 1,
            salones := 1, laboratorios := 0 }, "T"),
        ({ facultad := "B", programa := "PB", semestre := 1,
             salones := 1, laboratorios := 0 }, "T")] (by decide)⟩

/-- C4: the allocation scenario with conversion.  For any Resource Table
consisting of five Available FixedRoom entries (distinct dict keys,
distinct ids) and no Available Lab, a request for 3 salones and 2
laboratorios succeeds: rooms_assigned lists exactly the first three ids,
labs_assigned lists exactly the remaining two FixedRoom ids — converted to
MobileRoom and marked Assigned in the resulting table — and the response
carries the non-empty conversion notice. -/
theorem c4_escenario_asignacion (a1 a2 a3 a4 a5 : Aula) (k1 k2 k3 k4 k5 : String)
    (sol : Solicitud) (marca : String)
    (htipo : ∀ a ∈ [a1, a2, a3, a4, a5], a.tipo = TipoAula.salon
      ∧ a.estado = EstadoAula.disponible)
    (hkeys : ([k1, k2, k3, k4, k5] : List String).Nodup)
    (hids : ([a1.id, a2.id, a3.id, a4.id, a5.id] : List String).Nodup)
    (hsal : sol.salones = 3) (hlab : sol.laboratorios = 2) :
    asignar_aulas [(k1, a1), (k2, a2), (k3, a3), (k4, a4), (k5, a5)] sol
        marca =
      (Respuesta.exito sol.facultad sol.programa sol.semestre
        [a1.id, a2.id, a3.id] [a4.id, a5.id]
        (some (mensajeNotificacion 2)),
       [(k1, asignarCampos sol.facultad sol.programa marca a1),
        (k2, asignarCampos sol.facultad sol.programa marca a2),
        (k3, asignarCampos sol.facultad sol.programa marca a3),
        (k4, convertirEnMovil sol.facultad sol.programa marca a4),
        (k5, convertirEnMovil sol.facultad sol.programa marca a5)]) := by
  have e1 := htipo a1 (by simp)
  have e2 := htipo a2 (by simp)
  have e3 := htipo a3 (by simp)
  have e4 := htipo a4 (by simp)
  have e5 := htipo a5 (by simp)
  have s1 : esSalonDisponible a1 = true := by
    simp [esSalonDisponible, e1.1, e1.2]
  have s2 : esSalonDisponible a2 = true := by
    simp [esSalonDisponible, e2.1, e2.2]
  have s3 : esSalonDisponible a3 = true := by
    simp [esSalonDisponible, e3.1, e3.2]
  have s4 : esSalonDisponible a4 = true := by
    simp [esSalonDisponible, e4.1, e4.2]
  have s5 : esSalonDisponible a5 = true := by
    simp [esSalonDisponible, e5.1, e5.2]
  have sAsig : ∀ a : Aula,
      esSalonDisponible (asignarCampos sol.facultad sol.programa marca a)
        = false := by
    intro a
    simp [esSalonDisponible, asignarCampos]
  have lAsig : ∀ a : Aula,
      esLabDisponible (asignarCampos sol.facultad sol.programa marca a)
        = false := by
    intro a
    simp [esLabDisponible, asignarCampos]
  have l4 : esLabDisponible a4 = false := by
    simp [esLabDisponible, e4.1]
  have l5 : esLabDisponible a5 = false := by
    simp [esLabDisponible, e5.1]
  simp only [List.nodup_cons, List.mem_cons, List.mem_singleton,
    List.not_mem_nil, or_false, not_or, List.nodup_nil, and_true] at hkeys hids
  obtain ⟨⟨hk12, hk13, hk14, hk15⟩, ⟨hk23, hk24, hk25⟩, ⟨hk34, hk35⟩,
    hk45, -⟩ := hkeys
  obtain ⟨⟨hi12, hi13, hi14, hi15⟩, ⟨hi23, hi24, hi25⟩, ⟨hi34, hi35⟩,
    hi45, -⟩ := hids
  simp [asignar_aulas, asignarDesdeScan, actualizarClaves, hsal, hlab,
    s1, s2, s3, s4, s5, sAsig, lAsig, l4, l5,
    hk12, hk13, hk14, hk15, hk23, hk24, hk25, hk34, hk35, hk45,
    hi12, hi13, hi14, hi15, hi23, hi24, hi25, hi34, hi35, hi45,
    Ne.symm hk14, Ne.symm hk15, Ne.symm hk24, Ne.symm hk25,
    Ne.symm hk34, Ne.symm hk35, Ne.symm hk45,
    Ne.symm hi14, Ne.symm hi15, Ne.symm hi24, Ne.symm hi25,
    Ne.symm hi34, Ne.symm hi35, Ne.symm hi45]

/-- C4 witness: the five concrete salones S1..S5, discharging every
hypothesis of `c4_escenario_asignacion`. -/
theorem c4_escenario_asignacion_witness :
    (∀ a ∈ [salonLibre "S1" 30, salonLibre "S2" 30, salonLibre "S3" 30,
      salonLibre "S4" 30, salonLibre "S5" 30],
      a.tipo = TipoAula.salon ∧ a.estado = EstadoAula.disponible)
    ∧ asignar_aulas
        [("S1", salonLibre "S1" 30), ("S2", salonLibre "S2" 30),
          ("S3", salonLibre "S3" 30), ("S4", salonLibre "S4" 30),
          ("S5", salonLibre "S5" 30)]
        { facultad := "F", programa := "P", semestre := 1,
          salones := 3, laboratorios := 2 } "T"
      = (Respuesta.exito "F" "P" 1 ["S1", "S2", "S3"] ["S4", "S5"]
          (some (mensajeNotificacion 2)),
        [("S1", asignarCampos "F" "P" "T" (salonLibre "S1" 30)),
          ("S2", asignarCampos "F" "P" "T" (salonLibre "S2" 30)),
          ("S3", asignarCampos "F" "P" "T" (salonLibre "S3" 30)),
          ("S4", convertirEnMovil "F" "P" "T" (salonLibre "S4" 30)),
          ("S5", convertirEnMovil "F" "P" "T" (salonLibre "S5" 30))]) :=
  ⟨by decide,
    c4_escenario_asignacion (salonLibre "S1" 30) (salonLibre "S2" 30)
      (salonLibre "S3" 30) (salonLibre "S4" 30) (salonLibre "S5" 30)
      "S1" "S2" "S3" "S4" "S5"
      { facultad := "F", programa := "P", semestre := 1,
        salones := 3, laboratorios := 2 } "T"
      (by decide) (by decide) (by decide) (by decide) (by decide)⟩


end SDF
